import Mathlib

/-
Formal model of the linkedin-carousel-cli repository (src/carousel_pdf/cli.py).

The program converts a set of images into a fixed-size multi-page PDF.  The
core logic is `resize_canvas` (cli.py lines 41-77), which flattens source
transparency over a background color, computes an inner box from the target
dimensions and margin, fits the source into that box in `contain` or `cover`
mode, and pastes the fitted image centered on a fresh opaque canvas.

Modelling conventions:
- machine pixels are `Nat` channel values; the PIL 8-bit blend arithmetic
  (Paste.c MULDIV255 / BLEND macros) is embedded exactly as integer shifts;
- Python float arithmetic inside PIL geometry helpers (ImageOps.contain,
  ImageOps.fit) is modelled with exact rationals (`Rat`), and the Python
  `round` (round-half-to-even) as `pyRound`;
- the pixel interpolation performed by the PIL resampling core (Image.resize
  with a LANCZOS/BICUBIC filter) is floating-point convolution; it is kept
  abstract as a `Resampler` parameter, so every geometric theorem below
  holds for an arbitrary filter.  No theorem depends on resampled interior
  pixel values;
- fallible code (`raise typer.BadParameter`) returns `Except`.
-/

/-- One pixel in RGBA semantics; opaque storage modes carry `a = 255`. -/
structure Pixel where
  r : Nat
  g : Nat
  b : Nat
  a : Nat
deriving DecidableEq

/-- A background color triple, the `bg: Tuple[int,int,int]` of `resize_canvas`. -/
structure Rgb where
  r : Nat
  g : Nat
  b : Nat
deriving DecidableEq

/-- PIL Paste.c MULDIV255(a, b, tmp): tmp = a*b + 128; result = ((tmp >> 8) + tmp) >> 8. -/
def muldiv255 (a b : Nat) : Nat :=
  let t := a * b + 128
  ((t >>> 8) + t) >>> 8

/-- PIL Paste.c BLEND(mask, in1, in2) = MULDIV255(in1, 255 - mask) + MULDIV255(in2, mask);
`dst` is the existing canvas channel, `src` the pasted channel, `mask` the alpha. -/
def blendCh (mask dst src : Nat) : Nat :=
  muldiv255 dst (255 - mask) + muldiv255 src mask

/-- Blending one RGBA source pixel over an opaque background color, as done by
`base.paste(im.convert("RGBA"), mask=alpha)` for an RGB base (cli.py line 52). -/
def blendPixel (bg : Rgb) (p : Pixel) : Pixel :=
  { r := blendCh p.a bg.r p.r
    g := blendCh p.a bg.g p.g
    b := blendCh p.a bg.b p.b
    a := 255 }

/-- A PIL image: storage mode string, the declared-transparency flag for palette
images (the `"transparency" in im.info` check of cli.py line 50), dimensions, and
the pixel grid in RGBA semantics. -/
structure Image where
  mode : String
  transparency : Bool
  w : Nat
  h : Nat
  px : Nat → Nat → Pixel

/-- The transparency test of cli.py line 50:
`im.mode in ("RGBA", "LA") or (im.mode == "P" and "transparency" in im.info)`. -/
def Image.hasAlpha (im : Image) : Bool :=
  (im.mode == "RGBA") || (im.mode == "LA") || ((im.mode == "P") && im.transparency)

/-- A pixel-interpolation filter for `Image.resize`: given the source grid, the
source dimensions, the (rational) crop box, the output size and an output
coordinate, it produces the interpolated output pixel.  PIL implements this as
floating-point convolution (LANCZOS at the cover call site); it is abstract
here, and the theorems below hold for every filter. -/
def Resampler : Type :=
  (Nat → Nat → Pixel) → Nat → Nat → (Rat × Rat × Rat × Rat) → (Nat × Nat) → Nat → Nat → Pixel

/-- PIL `Image.new(mode, size, color)`: a fresh image filled with the color. -/
def Image.new (mode : String) (size : Nat × Nat) (bg : Rgb) : Image :=
  { mode := mode
    transparency := false
    w := size.1
    h := size.2
    px := fun _ _ => { r := bg.r, g := bg.g, b := bg.b, a := 255 } }

/-- PIL `im.resize(size, resample, box)`: an image of exactly `size` whose pixels
are interpolated from the crop box of the source by the filter. -/
def Image.resize (f : Resampler) (im : Image) (size : Nat × Nat)
    (box : Rat × Rat × Rat × Rat) : Image :=
  { mode := im.mode
    transparency := im.transparency
    w := size.1
    h := size.2
    px := fun x y => f im.px im.w im.h box size x y }

/-- PIL `base.paste(im, (x, y))`: the base image with the region
`[x, x + im.w) x [y, y + im.h)` overwritten by `im`; the base keeps its own
dimensions, so any overhang of the pasted image is clipped. -/
def Image.paste (base : Image) (im : Image) (x y : Int) : Image where
  mode := base.mode
  transparency := base.transparency
  w := base.w
  h := base.h
  px i j :=
    if x ≤ (i : Int) ∧ (i : Int) < x + im.w ∧ y ≤ (j : Int) ∧ (j : Int) < y + im.h then
      im.px ((i : Int) - x).toNat ((j : Int) - y).toNat
    else base.px i j

/-- The transparency-flattening step of `resize_canvas` (cli.py lines 49-55): an
alpha-bearing source is composited over a `bg`-filled RGB canvas of the same
size using its alpha band as paste mask; any other source is converted to RGB. -/
def flatten (im : Image) (bg : Rgb) : Image :=
  if im.hasAlpha then
    { mode := "RGB"
      transparency := false
      w := im.w
      h := im.h
      px := fun x y => blendPixel bg (im.px x y) }
  else
    { mode := "RGB"
      transparency := false
      w := im.w
      h := im.h
      px := fun x y => { im.px x y with a := 255 } }

/-- Python `round`: round half to even, on exact rationals. -/
def pyRound (q : Rat) : Int :=
  if q - q.floor < 1/2 then q.floor
  else if (1/2 : Rat) < q - q.floor then q.floor + 1
  else if q.floor % 2 = 0 then q.floor else q.floor + 1

/-- The output-size computation of PIL `ImageOps.contain(image, size)`:
scale to fit inside `(bw, bh)` preserving aspect ratio, with the tight axis
kept exact and the other axis rounded. -/
def containSize (w h bw bh : Nat) : Nat × Nat :=
  let imRatio : Rat := (w : Rat) / (h : Rat)
  let destRatio : Rat := (bw : Rat) / (bh : Rat)
  if imRatio ≠ destRatio then
    if destRatio < imRatio then
      let newH := pyRound ((h : Rat) / (w : Rat) * (bw : Rat))
      if newH ≠ (bh : Int) then (bw, newH.toNat) else (bw, bh)
    else
      let newW := pyRound ((w : Rat) / (h : Rat) * (bh : Rat))
      if newW ≠ (bw : Int) then (newW.toNat, bh) else (bw, bh)
  else (bw, bh)

/-- PIL `ImageOps.contain(image, size)` (used at cli.py line 62): a whole-image
resize (crop box is the full source) to the contained size. -/
def ImageOps.contain (f : Resampler) (im : Image) (size : Nat × Nat) : Image :=
  Image.resize f im (containSize im.w im.h size.1 size.2)
    (0, 0, (im.w : Rat), (im.h : Rat))

/-- The crop-box computation of PIL `ImageOps.fit(image, size, method, bleed,
centering)`: sanitize the parameters, then crop the largest centered box of the
requested aspect ratio from the live region. -/
def fitBox (w h bw bh : Nat) (bleed cx cy : Rat) : Rat × Rat × Rat × Rat :=
  let cx := if 0 ≤ cx ∧ cx ≤ 1 then cx else 1/2
  let cy := if 0 ≤ cy ∧ cy ≤ 1 then cy else 1/2
  let bleed := if 0 ≤ bleed ∧ bleed < 1/2 then bleed else 0
  let bleedX := bleed * (w : Rat)
  let bleedY := bleed * (h : Rat)
  let liveW : Rat := (w : Rat) - bleedX * 2
  let liveH : Rat := (h : Rat) - bleedY * 2
  let liveRatio := liveW / liveH
  let outRatio := (bw : Rat) / (bh : Rat)
  let cw : Rat := if outRatio ≤ liveRatio then liveH * outRatio else liveW
  let ch : Rat := if outRatio ≤ liveRatio then liveH else liveW / outRatio
  let cl := bleedX + (liveW - cw) * cx
  let ct := bleedY + (liveH - ch) * cy
  (cl, ct, cl + cw, ct + ch)

/-- PIL `ImageOps.fit(image, size, ...)` (used at cli.py line 70): resize the
computed crop box to exactly `size`. -/
def ImageOps.fit (f : Resampler) (im : Image) (size : Nat × Nat)
    (bleed cx cy : Rat) : Image :=
  Image.resize f im size (fitBox im.w im.h size.1 size.2 bleed cx cy)

/-- The inner-box computation of cli.py lines 58-59:
`inner_w = max(1, target_w - 2*margin)` on Python integers. -/
def inner_dim (target : Nat) (margin : Int) : Nat :=
  (max 1 ((target : Int) - 2 * margin)).toNat

/-- The `typer.BadParameter` message of cli.py line 77 (quotes elided). -/
def fitErrMsg : String :=
  "--fit must be either contain or cover"

/-- The core `resize_canvas` of cli.py lines 41-77, parameterized by the
resampling filter.  Flatten transparency, compute the inner box, fit the source
per the mode, paste centered (floor division) onto a fresh `bg` canvas; an
unrecognized fit mode raises `typer.BadParameter`. -/
def resize_canvas (f : Resampler) (im0 : Image) (target_w target_h : Nat)
    (fit : String) (bg : Rgb) (margin : Int) : Except String Image :=
  let im := flatten im0 bg
  let inner_w := inner_dim target_w margin
  let inner_h := inner_dim target_h margin
  if fit = "contain" then
    let im2 := ImageOps.contain f im (inner_w, inner_h)
    let canvas := Image.new "RGB" (target_w, target_h) bg
    let x := ((target_w : Int) - (im2.w : Int)).fdiv 2
    let y := ((target_h : Int) - (im2.h : Int)).fdiv 2
    Except.ok (canvas.paste im2 x y)
  else if fit = "cover" then
    let im2 := ImageOps.fit f im (inner_w, inner_h) 0 (1/2) (1/2)
    let canvas := Image.new "RGB" (target_w, target_h) bg
    let x := ((target_w : Int) - (im2.w : Int)).fdiv 2
    let y := ((target_h : Int) - (im2.h : Int)).fdiv 2
    Except.ok (canvas.paste im2 x y)
  else Except.error fitErrMsg

/-- The pathlib `Path.suffix` helper index: position of the last dot in the
final path component, if any. -/
def lastDotAux : List Char → Nat → Option Nat → Option Nat
  | [], _, acc => acc
  | c :: cs, i, acc => lastDotAux cs (i + 1) (if c = '.' then some i else acc)

/-- pathlib `Path.suffix`: the extension of the final component, including the
dot; empty when there is no dot, when the only dot is leading (hidden file), or
when the dot is the last character. -/
def pathSuffix (s : String) : String :=
  let cs := s.data
  match lastDotAux cs 0 none with
  | none => ""
  | some i => if 0 < i ∧ i + 1 < cs.length then String.mk (cs.drop i) else ""

/-- Python `str.lower()` on extension strings (ASCII case folding). -/
def strLower (s : String) : String :=
  String.mk (s.data.map Char.toLower)

/-- The `IMAGE_EXTS` set of cli.py line 22.  Python iterates a set in an
unspecified order; the order is irrelevant here because the caller natural-sorts
the result. -/
def IMAGE_EXTS : List String :=
  [".png", ".jpg", ".jpeg", ".webp"]

/-- One command-line path argument: either a plain file or a directory; a
directory is modelled by the final-component names of every file under it,
recursively (what `p.glob("**/...")` traverses). -/
inductive PathArg where
  | file (name : String)
  | dir (files : List String)
deriving DecidableEq

/-- The per-path collection step of `find_images` (cli.py lines 26-31).  For a
directory, the glob call (star pattern plus the extension) is a case-sensitive fnmatch on the final
component, i.e. the name must end with the (lowercase) extension literally.
For a plain file, `p.suffix.lower() in IMAGE_EXTS` is case-insensitive. -/
def collectOne : PathArg → List String
  | PathArg.file n => if strLower (pathSuffix n) ∈ IMAGE_EXTS then [n] else []
  | PathArg.dir files =>
    (IMAGE_EXTS.map (fun ext => files.filter (fun f => List.isSuffixOf ext.data f.data))).join

/-- `find_images` of cli.py lines 24-33: collect matches per path argument in
order.  The final `natsorted` call (natsort library, an external collaborator
per the spec) permutes this list and is omitted; no claim below depends on the
order of the result. -/
def find_images : List PathArg → List String
  | [] => []
  | p :: ps => collectOne p ++ find_images ps

/-- Observable events of a `main` run: opening a source image (Image.open,
cli.py line 118), printing to the console, and writing an output file. -/
inductive Ev where
  | openedImage (name : String)
  | printed (msg : String)
  | wroteFile (name : String)
deriving DecidableEq

/-- How a `main` run terminates: a `typer.BadParameter` usage error, an
explicit `typer.Exit`, or normal completion. -/
inductive Outcome where
  | badParam (msg : String)
  | exited (code : Nat)
  | finished
deriving DecidableEq

/-- A whole `main` run: the ordered event trace and the termination outcome. -/
structure RunOut where
  events : List Ev
  outcome : Outcome
deriving DecidableEq

/-- The message of cli.py line 97. -/
def widthHeightMsg : String :=
  "If you set --width or --height, you must set both."

/-- The message of cli.py line 39 (the invalid color string is elided). -/
def invalidColorMsg : String :=
  "Invalid color"

/-- The message of cli.py line 111 (rich markup stripped). -/
def noImagesMsg : String :=
  "No images found."

/-- The summary line of cli.py line 114, reduced to the slide count. -/
def slidesMsg (n : Nat) : String :=
  "Slides: " ++ toString n

/-- The message of cli.py line 140 (rich markup stripped). -/
def savedMsg (output : String) : String :=
  "Saved: " ++ output

/-- Python format of the slide index: decimal, zero-padded to two digits. -/
def pad2 (n : Nat) : String :=
  if n < 10 then "0" ++ toString n else toString n

/-- The processing loop of cli.py lines 116-120: open each discovered image in
order and normalize it with `resize_canvas`; a `typer.BadParameter` raised by
`resize_canvas` aborts the loop after the offending image was opened. -/
def processAll (f : Resampler) (load : String → Image) (tw th : Nat) (fit : String)
    (bg : Rgb) (margin : Int) : List String → List Ev × Except String (List Image)
  | [] => ([], Except.ok [])
  | p :: ps =>
    match resize_canvas f (load p) tw th fit bg margin with
    | Except.error e => ([Ev.openedImage p], Except.error e)
    | Except.ok c =>
      match processAll f load tw th fit bg margin ps with
      | (evs, Except.error e) => (Ev.openedImage p :: evs, Except.error e)
      | (evs, Except.ok cs) => (Ev.openedImage p :: evs, Except.ok (c :: cs))

/-- The `main` command of cli.py lines 79-140, parameterized by the resampling
filter and by `load`, the external image decoder (`Image.open`).  The color
option is modelled by the result of `ImageColor.getrgb` (`none` = the parse
failed, so `hex_to_rgb` raises `typer.BadParameter`).  Steps, in source order:
the width/height xor check, target-size selection, color parsing, image
discovery, the empty check (exit code 1), the summary line, the per-image loop,
the optional per-slide export, and the final PDF write. -/
def mainModel (f : Resampler) (load : String → Image) (paths : List PathArg)
    (output : String) (square : Bool) (width height : Option Nat) (fit : String)
    (bg : Option Rgb) (margin : Int) (exportDir : Option String) : RunOut :=
  if width.isSome ≠ height.isSome then
    { events := [], outcome := Outcome.badParam widthHeightMsg }
  else
    let dims : Nat × Nat :=
      match width, height with
      | some w, some h => (w, h)
      | _, _ => if square then (1080, 1080) else (1080, 1350)
    match bg with
    | none => { events := [], outcome := Outcome.badParam invalidColorMsg }
    | some bgRgb =>
      let imgs := find_images paths
      if imgs.isEmpty then
        { events := [Ev.printed noImagesMsg], outcome := Outcome.exited 1 }
      else
        match processAll f load dims.1 dims.2 fit bgRgb margin imgs with
        | (evs, Except.error e) =>
          { events := Ev.printed (slidesMsg imgs.length) :: evs
            outcome := Outcome.badParam e }
        | (evs, Except.ok normalized) =>
          let exportEvs :=
            match exportDir with
            | some d =>
              (List.range normalized.length).map
                (fun i => Ev.wroteFile (d ++ "/slide_" ++ pad2 (i + 1) ++ ".jpg"))
            | none => []
          { events := Ev.printed (slidesMsg imgs.length) :: evs ++ exportEvs ++
              [Ev.wroteFile output, Ev.printed (savedMsg output)]
            outcome := Outcome.finished }

/-- A trivial concrete interpolation filter, used only to instantiate the
`Resampler` parameter in witnesses. -/
def pointResampler : Resampler := fun px _ _ _ _ _ _ => px 0 0

/-- A concrete 2x2 RGBA source with one fully-transparent column, used in
witnesses. -/
def imgA : Image where
  mode := "RGBA"
  transparency := false
  w := 2
  h := 2
  px x _ := { r := 10, g := 20, b := 30, a := if x = 0 then 0 else 255 }

/-- The default background color of the CLI (#ffffff). -/
def whiteBg : Rgb := { r := 255, g := 255, b := 255 }

theorem fdiv_two (d : Int) : d.fdiv 2 = d / 2 := by
  match d with
  | Int.ofNat m =>
    have h1 : Int.ofNat (m / 2) = Int.fdiv (Int.ofNat m) (Int.ofNat 2) := Int.ofNat_fdiv m 2
    have h2 : Int.ediv (Int.ofNat m) (Int.ofNat 2) = Int.ofNat (m / 2) := rfl
    show Int.fdiv (Int.ofNat m) (Int.ofNat 2) = Int.ediv (Int.ofNat m) (Int.ofNat 2)
    rw [h2, ← h1]
  | Int.negSucc m => rfl

theorem flatten_w (im : Image) (bg : Rgb) : (flatten im bg).w = im.w := by
  unfold flatten
  split <;> rfl

theorem flatten_h (im : Image) (bg : Rgb) : (flatten im bg).h = im.h := by
  unfold flatten
  split <;> rfl

theorem inner_dim_pos (t : Nat) (m : Int) : 1 ≤ inner_dim t m := by
  unfold inner_dim
  omega

theorem inner_dim_int (t : Nat) (m : Int) :
    ((inner_dim t m : Nat) : Int) = max 1 ((t : Int) - 2 * m) := by
  unfold inner_dim
  omega

theorem resize_canvas_contain_eq (f : Resampler) (im : Image) (tw th : Nat)
    (bg : Rgb) (m : Int) :
    resize_canvas f im tw th "contain" bg m =
      Except.ok ((Image.new "RGB" (tw, th) bg).paste
        (ImageOps.contain f (flatten im bg) (inner_dim tw m, inner_dim th m))
        (((tw : Int) - ((ImageOps.contain f (flatten im bg)
            (inner_dim tw m, inner_dim th m)).w : Int)).fdiv 2)
        (((th : Int) - ((ImageOps.contain f (flatten im bg)
            (inner_dim tw m, inner_dim th m)).h : Int)).fdiv 2)) := by
  rfl

theorem resize_canvas_cover_eq (f : Resampler) (im : Image) (tw th : Nat)
    (bg : Rgb) (m : Int) :
    resize_canvas f im tw th "cover" bg m =
      Except.ok ((Image.new "RGB" (tw, th) bg).paste
        (ImageOps.fit f (flatten im bg) (inner_dim tw m, inner_dim th m) 0 (1/2) (1/2))
        (((tw : Int) - ((ImageOps.fit f (flatten im bg)
            (inner_dim tw m, inner_dim th m) 0 (1/2) (1/2)).w : Int)).fdiv 2)
        (((th : Int) - ((ImageOps.fit f (flatten im bg)
            (inner_dim tw m, inner_dim th m) 0 (1/2) (1/2)).h : Int)).fdiv 2)) := by
  rfl

/-- Claim C1: for every source image, valid fit mode in (contain, cover),
target_w >= 1, target_h >= 1, and margin with 2*margin < min(target_w,
target_h), the image returned by resize_canvas has width exactly target_w,
height exactly target_h, and is fully opaque RGB with no alpha channel,
regardless of the source dimensions, color mode, or transparency. -/
theorem resize_canvas_invariants (f : Resampler) (im : Image) (tw th : Nat)
    (fit : String) (bg : Rgb) (m : Int)
    (hfit : fit = "contain" ∨ fit = "cover")
    (htw : 1 ≤ tw) (hth : 1 ≤ th)
    (hm : 2 * m < min (tw : Int) (th : Int)) :
    ∃ out, resize_canvas f im tw th fit bg m = Except.ok out ∧
      out.w = tw ∧ out.h = th ∧ out.mode = "RGB" ∧ out.hasAlpha = false := by
  rcases hfit with h | h <;> subst h
  · exact ⟨_, resize_canvas_contain_eq f im tw th bg m, rfl, rfl, rfl, rfl⟩
  · exact ⟨_, resize_canvas_cover_eq f im tw th bg m, rfl, rfl, rfl, rfl⟩

theorem resize_canvas_invariants_witness :
    (("contain" : String) = "contain" ∨ ("contain" : String) = "cover") ∧
    1 ≤ 1080 ∧ 1 ≤ 1350 ∧ 2 * (24 : Int) < min (1080 : Int) (1350 : Int) ∧
    ∃ out, resize_canvas pointResampler imgA 1080 1350 "contain" whiteBg 24 =
        Except.ok out ∧
      out.w = 1080 ∧ out.h = 1350 ∧ out.mode = "RGB" ∧ out.hasAlpha = false :=
  ⟨Or.inl rfl, by decide, by decide, by decide,
    resize_canvas_invariants pointResampler imgA 1080 1350 "contain" whiteBg 24
      (Or.inl rfl) (by decide) (by decide) (by decide)⟩

/-- Claim C6: for every target_w, target_h, and margin, resize_canvas computes
the usable inner box as inner_w = max(1, target_w - 2*margin) and
inner_h = max(1, target_h - 2*margin), so a degenerate inner box collapses to
a 1x1 minimum. -/
theorem inner_box_formula (tw th : Nat) (m : Int) :
    ((inner_dim tw m : Nat) : Int) = max 1 ((tw : Int) - 2 * m) ∧
    ((inner_dim th m : Nat) : Int) = max 1 ((th : Int) - 2 * m) ∧
    ((tw : Int) - 2 * m ≤ 0 → inner_dim tw m = 1) ∧
    ((th : Int) - 2 * m ≤ 0 → inner_dim th m = 1) := by
  unfold inner_dim
  refine ⟨by omega, by omega, by omega, by omega⟩

theorem inner_box_formula_witness :
    ((inner_dim 100 30 : Nat) : Int) = max 1 ((100 : Int) - 2 * 30) ∧
    ((inner_dim 50 30 : Nat) : Int) = max 1 ((50 : Int) - 2 * 30) ∧
    ((100 : Int) - 2 * 30 ≤ 0 → inner_dim 100 30 = 1) ∧
    ((50 : Int) - 2 * 30 ≤ 0 → inner_dim 50 30 = 1) :=
  inner_box_formula 100 50 30

/-- Claim C7: for every fitted image, resize_canvas pastes it at position
x = (target_w - fitted_w) // 2 and y = (target_h - fitted_h) // 2 using integer
floor division, in both contain and cover modes, so centering may be off by one
pixel toward the top-left for odd dimension differences. -/
theorem resize_canvas_centering (f : Resampler) (im : Image) (tw th : Nat)
    (bg : Rgb) (m : Int) :
    (resize_canvas f im tw th "contain" bg m =
      Except.ok ((Image.new "RGB" (tw, th) bg).paste
        (ImageOps.contain f (flatten im bg) (inner_dim tw m, inner_dim th m))
        (((tw : Int) - ((ImageOps.contain f (flatten im bg)
            (inner_dim tw m, inner_dim th m)).w : Int)).fdiv 2)
        (((th : Int) - ((ImageOps.contain f (flatten im bg)
            (inner_dim tw m, inner_dim th m)).h : Int)).fdiv 2))) ∧
    (resize_canvas f im tw th "cover" bg m =
      Except.ok ((Image.new "RGB" (tw, th) bg).paste
        (ImageOps.fit f (flatten im bg) (inner_dim tw m, inner_dim th m) 0 (1/2) (1/2))
        (((tw : Int) - ((ImageOps.fit f (flatten im bg)
            (inner_dim tw m, inner_dim th m) 0 (1/2) (1/2)).w : Int)).fdiv 2)
        (((th : Int) - ((ImageOps.fit f (flatten im bg)
            (inner_dim tw m, inner_dim th m) 0 (1/2) (1/2)).h : Int)).fdiv 2))) ∧
    (∀ d : Int, 0 ≤ d →
      d.fdiv 2 ≤ d - d.fdiv 2 ∧ (d % 2 = 1 → d.fdiv 2 < d - d.fdiv 2)) := by
  refine ⟨resize_canvas_contain_eq f im tw th bg m,
    resize_canvas_cover_eq f im tw th bg m, ?_⟩
  intro d hd
  rw [fdiv_two]
  exact ⟨by omega, by omega⟩

theorem resize_canvas_centering_witness :
    (resize_canvas pointResampler imgA 9 7 "contain" whiteBg 0 =
      Except.ok ((Image.new "RGB" (9, 7) whiteBg).paste
        (ImageOps.contain pointResampler (flatten imgA whiteBg) (inner_dim 9 0, inner_dim 7 0))
        (((9 : Int) - ((ImageOps.contain pointResampler (flatten imgA whiteBg)
            (inner_dim 9 0, inner_dim 7 0)).w : Int)).fdiv 2)
        (((7 : Int) - ((ImageOps.contain pointResampler (flatten imgA whiteBg)
            (inner_dim 9 0, inner_dim 7 0)).h : Int)).fdiv 2))) ∧
    (resize_canvas pointResampler imgA 9 7 "cover" whiteBg 0 =
      Except.ok ((Image.new "RGB" (9, 7) whiteBg).paste
        (ImageOps.fit pointResampler (flatten imgA whiteBg) (inner_dim 9 0, inner_dim 7 0) 0 (1/2) (1/2))
        (((9 : Int) - ((ImageOps.fit pointResampler (flatten imgA whiteBg)
            (inner_dim 9 0, inner_dim 7 0) 0 (1/2) (1/2)).w : Int)).fdiv 2)
        (((7 : Int) - ((ImageOps.fit pointResampler (flatten imgA whiteBg)
            (inner_dim 9 0, inner_dim 7 0) 0 (1/2) (1/2)).h : Int)).fdiv 2))) ∧
    (∀ d : Int, 0 ≤ d →
      d.fdiv 2 ≤ d - d.fdiv 2 ∧ (d % 2 = 1 → d.fdiv 2 < d - d.fdiv 2)) :=
  resize_canvas_centering pointResampler imgA 9 7 whiteBg 0

/-- Claim C10: for every source image and every integer margin, including
negative margins which are accepted unchecked, resize_canvas still returns a
canvas of exactly (target_w, target_h): with a negative margin the inner box
exceeds the target and (in cover mode) the fitted image is pasted at the
negative offsets (margin, margin) and clipped by the canvas rather than
enlarging it. -/
theorem negative_margin_clipped (f : Resampler) (im : Image) (tw th : Nat)
    (bg : Rgb) (m : Int) (htw : 1 ≤ tw) (hth : 1 ≤ th) (hm : m < 0) :
    (∃ out, resize_canvas f im tw th "contain" bg m = Except.ok out ∧
      out.w = tw ∧ out.h = th) ∧
    ((tw : Int) < inner_dim tw m ∧ (th : Int) < inner_dim th m) ∧
    (∃ out, resize_canvas f im tw th "cover" bg m = Except.ok out ∧
      out.w = tw ∧ out.h = th ∧ m < 0 ∧
      out = (Image.new "RGB" (tw, th) bg).paste
        (ImageOps.fit f (flatten im bg) (inner_dim tw m, inner_dim th m) 0 (1/2) (1/2))
        m m) := by
  have hiw : ((inner_dim tw m : Nat) : Int) = (tw : Int) - 2 * m := by
    unfold inner_dim
    omega
  have hih : ((inner_dim th m : Nat) : Int) = (th : Int) - 2 * m := by
    unfold inner_dim
    omega
  have hx : ((tw : Int) - ((inner_dim tw m : Nat) : Int)).fdiv 2 = m := by
    rw [fdiv_two]
    omega
  have hy : ((th : Int) - ((inner_dim th m : Nat) : Int)).fdiv 2 = m := by
    rw [fdiv_two]
    omega
  refine ⟨⟨_, resize_canvas_contain_eq f im tw th bg m, rfl, rfl⟩,
    ⟨by omega, by omega⟩,
    ⟨_, resize_canvas_cover_eq f im tw th bg m, rfl, rfl, hm, ?_⟩⟩
  have hw : ((ImageOps.fit f (flatten im bg)
      (inner_dim tw m, inner_dim th m) 0 (1/2) (1/2)).w : Int) =
      ((inner_dim tw m : Nat) : Int) := rfl
  have hh : ((ImageOps.fit f (flatten im bg)
      (inner_dim tw m, inner_dim th m) 0 (1/2) (1/2)).h : Int) =
      ((inner_dim th m : Nat) : Int) := rfl
  rw [hw, hh, hx, hy]

theorem negative_margin_clipped_witness :
    1 ≤ 6 ∧ 1 ≤ 4 ∧ (-3 : Int) < 0 ∧
    ((∃ out, resize_canvas pointResampler imgA 6 4 "contain" whiteBg (-3) = Except.ok out ∧
      out.w = 6 ∧ out.h = 4) ∧
    ((6 : Int) < inner_dim 6 (-3) ∧ (4 : Int) < inner_dim 4 (-3)) ∧
    (∃ out, resize_canvas pointResampler imgA 6 4 "cover" whiteBg (-3) = Except.ok out ∧
      out.w = 6 ∧ out.h = 4 ∧ (-3 : Int) < 0 ∧
      out = (Image.new "RGB" (6, 4) whiteBg).paste
        (ImageOps.fit pointResampler (flatten imgA whiteBg)
          (inner_dim 6 (-3), inner_dim 4 (-3)) 0 (1/2) (1/2))
        (-3) (-3))) :=
  ⟨by decide, by decide, by decide,
    negative_margin_clipped pointResampler imgA 6 4 whiteBg (-3)
      (by decide) (by decide) (by decide)⟩

theorem pyRound_le (q : Rat) (n : Int) (h : q < (n : Rat)) : pyRound q ≤ n := by
  have hfl : q.floor + 1 ≤ n := by
    by_contra hc
    push_neg at hc
    have h2 : n ≤ q.floor := by omega
    have h3 : (n : Rat) ≤ q := Rat.le_floor.mp h2
    linarith
  unfold pyRound
  split_ifs <;> omega

theorem containSize_spec (w h bw bh : Nat) (hw : 1 ≤ w) (hh : 1 ≤ h)
    (hbw : 1 ≤ bw) (hbh : 1 ≤ bh) :
    (containSize w h bw bh).1 ≤ bw ∧ (containSize w h bw bh).2 ≤ bh ∧
    ((containSize w h bw bh).1 = bw ∨ (containSize w h bw bh).2 = bh) := by
  have hw0 : (0 : Rat) < (w : Rat) := by exact_mod_cast (by omega : 0 < w)
  have hh0 : (0 : Rat) < (h : Rat) := by exact_mod_cast (by omega : 0 < h)
  have hbh0 : (0 : Rat) < (bh : Rat) := by exact_mod_cast (by omega : 0 < bh)
  unfold containSize
  simp only []
  split_ifs with h1 h2 h3 h4
  · refine ⟨le_refl bw, ?_, Or.inl rfl⟩
    have hcross : (bw : Rat) * (h : Rat) < (w : Rat) * (bh : Rat) :=
      (div_lt_div_iff₀ hbh0 hh0).mp h2
    have hq : (h : Rat) / (w : Rat) * (bw : Rat) < (bh : Rat) := by
      rw [div_mul_eq_mul_div, div_lt_iff₀ hw0]
      calc (h : Rat) * bw = (bw : Rat) * h := by ring
        _ < (w : Rat) * bh := hcross
        _ = (bh : Rat) * w := by ring
    exact Int.toNat_le.mpr (pyRound_le _ _ hq)
  · exact ⟨le_refl bw, le_refl bh, Or.inl rfl⟩
  · refine ⟨?_, le_refl bh, Or.inr rfl⟩
    have hlt : (w : Rat) / (h : Rat) < (bw : Rat) / (bh : Rat) :=
      lt_of_le_of_ne (not_lt.mp h2) h1
    have hcross : (w : Rat) * (bh : Rat) < (bw : Rat) * (h : Rat) :=
      (div_lt_div_iff₀ hh0 hbh0).mp hlt
    have hq : (w : Rat) / (h : Rat) * (bh : Rat) < (bw : Rat) := by
      rw [div_mul_eq_mul_div, div_lt_iff₀ hh0]
      exact hcross
    exact Int.toNat_le.mpr (pyRound_le _ _ hq)
  · exact ⟨le_refl bw, le_refl bh, Or.inl rfl⟩
  · exact ⟨le_refl bw, le_refl bh, Or.inl rfl⟩

/-- Claim C3: for every source image, in contain mode the fitted (scaled) image
before pasting has width <= inner_w and height <= inner_h, at least one of the
two dimensions equals the corresponding inner-box dimension (tight fit on one
axis), and no source content is cropped (the resize reads the full source box,
never a sub-rectangle). -/
theorem contain_mode_fits (f : Resampler) (im : Image) (bg : Rgb) (tw th : Nat)
    (m : Int) (hw : 1 ≤ im.w) (hh : 1 ≤ im.h) :
    (ImageOps.contain f (flatten im bg) (inner_dim tw m, inner_dim th m)).w ≤
        inner_dim tw m ∧
    (ImageOps.contain f (flatten im bg) (inner_dim tw m, inner_dim th m)).h ≤
        inner_dim th m ∧
    ((ImageOps.contain f (flatten im bg) (inner_dim tw m, inner_dim th m)).w =
        inner_dim tw m ∨
      (ImageOps.contain f (flatten im bg) (inner_dim tw m, inner_dim th m)).h =
        inner_dim th m) ∧
    ImageOps.contain f (flatten im bg) (inner_dim tw m, inner_dim th m) =
      Image.resize f (flatten im bg)
        ((ImageOps.contain f (flatten im bg) (inner_dim tw m, inner_dim th m)).w,
          (ImageOps.contain f (flatten im bg) (inner_dim tw m, inner_dim th m)).h)
        (0, 0, ((flatten im bg).w : Rat), ((flatten im bg).h : Rat)) := by
  have hfw : (flatten im bg).w = im.w := flatten_w im bg
  have hfh : (flatten im bg).h = im.h := flatten_h im bg
  have hs := containSize_spec (flatten im bg).w (flatten im bg).h
    (inner_dim tw m) (inner_dim th m)
    (by rw [hfw]; exact hw) (by rw [hfh]; exact hh)
    (inner_dim_pos tw m) (inner_dim_pos th m)
  exact ⟨hs.1, hs.2.1, hs.2.2, rfl⟩

theorem contain_mode_fits_witness :
    1 ≤ imgA.w ∧ 1 ≤ imgA.h ∧
    ((ImageOps.contain pointResampler (flatten imgA whiteBg)
        (inner_dim 9 1, inner_dim 7 1)).w ≤ inner_dim 9 1 ∧
    (ImageOps.contain pointResampler (flatten imgA whiteBg)
        (inner_dim 9 1, inner_dim 7 1)).h ≤ inner_dim 7 1 ∧
    ((ImageOps.contain pointResampler (flatten imgA whiteBg)
        (inner_dim 9 1, inner_dim 7 1)).w = inner_dim 9 1 ∨
      (ImageOps.contain pointResampler (flatten imgA whiteBg)
        (inner_dim 9 1, inner_dim 7 1)).h = inner_dim 7 1) ∧
    ImageOps.contain pointResampler (flatten imgA whiteBg)
        (inner_dim 9 1, inner_dim 7 1) =
      Image.resize pointResampler (flatten imgA whiteBg)
        ((ImageOps.contain pointResampler (flatten imgA whiteBg)
            (inner_dim 9 1, inner_dim 7 1)).w,
          (ImageOps.contain pointResampler (flatten imgA whiteBg)
            (inner_dim 9 1, inner_dim 7 1)).h)
        (0, 0, ((flatten imgA whiteBg).w : Rat), ((flatten imgA whiteBg).h : Rat))) :=
  ⟨by decide, by decide,
    contain_mode_fits pointResampler imgA whiteBg 9 7 1 (by decide) (by decide)⟩

theorem fitBox_spec (w h bw bh : Nat) (hw : 1 ≤ w) (hh : 1 ≤ h)
    (hbw : 1 ≤ bw) (hbh : 1 ≤ bh) :
    ((fitBox w h bw bh 0 (1/2) (1/2)).2.2.1 - (fitBox w h bw bh 0 (1/2) (1/2)).1) *
        max ((bw : Rat) / w) ((bh : Rat) / h) = (bw : Rat) ∧
    ((fitBox w h bw bh 0 (1/2) (1/2)).2.2.2 - (fitBox w h bw bh 0 (1/2) (1/2)).2.1) *
        max ((bw : Rat) / w) ((bh : Rat) / h) = (bh : Rat) ∧
    (fitBox w h bw bh 0 (1/2) (1/2)).1 =
      ((w : Rat) - ((fitBox w h bw bh 0 (1/2) (1/2)).2.2.1 -
        (fitBox w h bw bh 0 (1/2) (1/2)).1)) / 2 ∧
    (fitBox w h bw bh 0 (1/2) (1/2)).2.1 =
      ((h : Rat) - ((fitBox w h bw bh 0 (1/2) (1/2)).2.2.2 -
        (fitBox w h bw bh 0 (1/2) (1/2)).2.1)) / 2 := by
  have hw0 : (0 : Rat) < (w : Rat) := by exact_mod_cast (by omega : 0 < w)
  have hh0 : (0 : Rat) < (h : Rat) := by exact_mod_cast (by omega : 0 < h)
  have hbw0 : (0 : Rat) < (bw : Rat) := by exact_mod_cast (by omega : 0 < bw)
  have hbh0 : (0 : Rat) < (bh : Rat) := by exact_mod_cast (by omega : 0 < bh)
  unfold fitBox
  simp only []
  norm_num
  split_ifs with hc
  · have h1 : (bw : Rat) * h ≤ w * bh := (div_le_div_iff₀ hbh0 hh0).mp hc
    have hle : (bw : Rat) / w ≤ (bh : Rat) / h :=
      (div_le_div_iff₀ hw0 hh0).mpr (by linarith)
    rw [max_eq_right hle]
    refine ⟨?_, ?_, by ring, by ring⟩
    · field_simp
      try ring
    · field_simp
      try ring
  · have hlt : (w : Rat) / h < (bw : Rat) / bh := not_le.mp hc
    have h1 : (w : Rat) * bh < bw * h := (div_lt_div_iff₀ hh0 hbh0).mp hlt
    have hgt : (bh : Rat) / h < (bw : Rat) / w :=
      (div_lt_div_iff₀ hh0 hw0).mpr (by linarith)
    rw [max_eq_left (le_of_lt hgt)]
    refine ⟨?_, ?_, by ring, by ring⟩
    · field_simp
      try ring
    · rw [div_div_eq_mul_div]
      field_simp
      try ring

/-- Claim C4: for every source image, in cover mode the fitted image that is
pasted onto the canvas has dimensions exactly (inner_w, inner_h): the source is
uniformly scaled by the larger of the two axis ratios (the crop box times that
scale is exactly the inner box) and then center-cropped (the crop box is
centered in the source) to fill the inner box in both axes. -/
theorem cover_mode_fills (f : Resampler) (im : Image) (bg : Rgb) (tw th : Nat)
    (m : Int) (hw : 1 ≤ im.w) (hh : 1 ≤ im.h) :
    (ImageOps.fit f (flatten im bg) (inner_dim tw m, inner_dim th m)
        0 (1/2) (1/2)).w = inner_dim tw m ∧
    (ImageOps.fit f (flatten im bg) (inner_dim tw m, inner_dim th m)
        0 (1/2) (1/2)).h = inner_dim th m ∧
    ImageOps.fit f (flatten im bg) (inner_dim tw m, inner_dim th m) 0 (1/2) (1/2) =
      Image.resize f (flatten im bg) (inner_dim tw m, inner_dim th m)
        (fitBox im.w im.h (inner_dim tw m) (inner_dim th m) 0 (1/2) (1/2)) ∧
    ((fitBox im.w im.h (inner_dim tw m) (inner_dim th m) 0 (1/2) (1/2)).2.2.1 -
        (fitBox im.w im.h (inner_dim tw m) (inner_dim th m) 0 (1/2) (1/2)).1) *
      max ((inner_dim tw m : Rat) / im.w) ((inner_dim th m : Rat) / im.h) =
        (inner_dim tw m : Rat) ∧
    ((fitBox im.w im.h (inner_dim tw m) (inner_dim th m) 0 (1/2) (1/2)).2.2.2 -
        (fitBox im.w im.h (inner_dim tw m) (inner_dim th m) 0 (1/2) (1/2)).2.1) *
      max ((inner_dim tw m : Rat) / im.w) ((inner_dim th m : Rat) / im.h) =
        (inner_dim th m : Rat) ∧
    (fitBox im.w im.h (inner_dim tw m) (inner_dim th m) 0 (1/2) (1/2)).1 =
      ((im.w : Rat) -
        ((fitBox im.w im.h (inner_dim tw m) (inner_dim th m) 0 (1/2) (1/2)).2.2.1 -
          (fitBox im.w im.h (inner_dim tw m) (inner_dim th m) 0 (1/2) (1/2)).1)) / 2 ∧
    (fitBox im.w im.h (inner_dim tw m) (inner_dim th m) 0 (1/2) (1/2)).2.1 =
      ((im.h : Rat) -
        ((fitBox im.w im.h (inner_dim tw m) (inner_dim th m) 0 (1/2) (1/2)).2.2.2 -
          (fitBox im.w im.h (inner_dim tw m) (inner_dim th m) 0 (1/2) (1/2)).2.1)) / 2 := by
  have hs := fitBox_spec im.w im.h (inner_dim tw m) (inner_dim th m) hw hh
    (inner_dim_pos tw m) (inner_dim_pos th m)
  refine ⟨rfl, rfl, ?_, hs.1, hs.2.1, hs.2.2.1, hs.2.2.2⟩
  unfold ImageOps.fit
  rw [flatten_w im bg, flatten_h im bg]

theorem cover_mode_fills_witness :
    1 ≤ imgA.w ∧ 1 ≤ imgA.h ∧
    ((ImageOps.fit pointResampler (flatten imgA whiteBg)
        (inner_dim 9 1, inner_dim 7 1) 0 (1/2) (1/2)).w = inner_dim 9 1 ∧
    (ImageOps.fit pointResampler (flatten imgA whiteBg)
        (inner_dim 9 1, inner_dim 7 1) 0 (1/2) (1/2)).h = inner_dim 7 1) :=
  ⟨by decide, by decide,
    (cover_mode_fills pointResampler imgA whiteBg 9 7 1 (by decide) (by decide)).1,
    (cover_mode_fills pointResampler imgA whiteBg 9 7 1 (by decide) (by decide)).2.1⟩

set_option maxRecDepth 4096 in
theorem muldiv255_255 : ∀ a < 256, muldiv255 a 255 = a := by decide

theorem muldiv255_zero (a : Nat) : muldiv255 a 0 = 0 := by
  unfold muldiv255
  rw [Nat.mul_zero]
  decide

theorem blendCh_zero (d s : Nat) (hd : d ≤ 255) : blendCh 0 d s = d := by
  unfold blendCh
  rw [Nat.sub_zero, muldiv255_255 d (by omega), muldiv255_zero]
  rfl

/-- Claim C5: for every source image that has an alpha channel (or is in a
palette mode with a declared transparent color), the flattening step composites
it over background_rgb using the alpha channel as blend mask — so every
fully-transparent source pixel becomes exactly background_rgb — and in the
final output every pixel outside the region covered by the pasted source
content equals background_rgb, with no alpha channel in the output. -/
theorem flatten_composites (f : Resampler) (im : Image) (bg : Rgb) (tw th : Nat)
    (fit : String) (m : Int)
    (halpha : im.hasAlpha = true)
    (hr : bg.r ≤ 255) (hg : bg.g ≤ 255) (hb : bg.b ≤ 255)
    (hfit : fit = "contain" ∨ fit = "cover") :
    ((flatten im bg).mode = "RGB" ∧ (flatten im bg).w = im.w ∧
      (flatten im bg).h = im.h ∧
      (∀ x y, (flatten im bg).px x y = blendPixel bg (im.px x y))) ∧
    (∀ x y, (im.px x y).a = 0 →
      (flatten im bg).px x y = { r := bg.r, g := bg.g, b := bg.b, a := 255 }) ∧
    (∃ fitted x0 y0,
      resize_canvas f im tw th fit bg m =
        Except.ok ((Image.new "RGB" (tw, th) bg).paste fitted x0 y0) ∧
      ((Image.new "RGB" (tw, th) bg).paste fitted x0 y0).hasAlpha = false ∧
      ∀ i j : Nat,
        ((i : Int) < x0 ∨ x0 + fitted.w ≤ (i : Int) ∨
          (j : Int) < y0 ∨ y0 + fitted.h ≤ (j : Int)) →
        ((Image.new "RGB" (tw, th) bg).paste fitted x0 y0).px i j =
          { r := bg.r, g := bg.g, b := bg.b, a := 255 }) := by
  have hpx : ∀ x y, (flatten im bg).px x y = blendPixel bg (im.px x y) := by
    intro x y
    unfold flatten
    rw [halpha]
    simp only [if_true]
  refine ⟨⟨?_, ?_, ?_, hpx⟩, ?_, ?_⟩
  · unfold flatten
    rw [halpha]
    simp only [if_true]
  · exact flatten_w im bg
  · exact flatten_h im bg
  · intro x y h0
    rw [hpx x y]
    unfold blendPixel
    rw [h0, blendCh_zero bg.r _ hr, blendCh_zero bg.g _ hg, blendCh_zero bg.b _ hb]
  · have houtside : ∀ (fitted : Image) (x0 y0 : Int) (i j : Nat),
        ((i : Int) < x0 ∨ x0 + fitted.w ≤ (i : Int) ∨
          (j : Int) < y0 ∨ y0 + fitted.h ≤ (j : Int)) →
        ((Image.new "RGB" (tw, th) bg).paste fitted x0 y0).px i j =
          { r := bg.r, g := bg.g, b := bg.b, a := 255 } := by
      intro fitted x0 y0 i j hij
      show (if x0 ≤ (i : Int) ∧ (i : Int) < x0 + fitted.w ∧ y0 ≤ (j : Int) ∧
          (j : Int) < y0 + fitted.h then _ else _) = _
      rw [if_neg (by omega)]
      rfl
    rcases hfit with h | h <;> subst h
    · exact ⟨_, _, _, resize_canvas_contain_eq f im tw th bg m, rfl,
        houtside _ _ _⟩
    · exact ⟨_, _, _, resize_canvas_cover_eq f im tw th bg m, rfl,
        houtside _ _ _⟩

theorem flatten_composites_witness :
    imgA.hasAlpha = true ∧ whiteBg.r ≤ 255 ∧ whiteBg.g ≤ 255 ∧ whiteBg.b ≤ 255 ∧
    (("contain" : String) = "contain" ∨ ("contain" : String) = "cover") ∧
    (∀ x y, (imgA.px x y).a = 0 →
      (flatten imgA whiteBg).px x y =
        { r := whiteBg.r, g := whiteBg.g, b := whiteBg.b, a := 255 }) :=
  ⟨rfl, by decide, by decide, by decide, Or.inl rfl,
    (flatten_composites pointResampler imgA whiteBg 9 7 "contain" 1 rfl
      (by decide) (by decide) (by decide) (Or.inl rfl)).2.1⟩

theorem resize_canvas_invalid_fit (f : Resampler) (im : Image) (tw th : Nat)
    (bg : Rgb) (m : Int) (fit : String)
    (h1 : fit ≠ "contain") (h2 : fit ≠ "cover") :
    resize_canvas f im tw th fit bg m = Except.error fitErrMsg := by
  unfold resize_canvas
  rw [if_neg h1, if_neg h2]

theorem processAll_invalid_fit (f : Resampler) (load : String → Image)
    (tw th : Nat) (fit : String) (bg : Rgb) (m : Int)
    (h1 : fit ≠ "contain") (h2 : fit ≠ "cover") (p : String) (ps : List String) :
    processAll f load tw th fit bg m (p :: ps) =
      ([Ev.openedImage p], Except.error fitErrMsg) := by
  unfold processAll
  rw [resize_canvas_invalid_fit f (load p) tw th bg m fit h1 h2]

/-- Claim C9: for every run in which discovery finds zero matching files across
all given paths, the program exits with a non-zero status (exit code 1) after
reporting that no images were found, and no output file is written. -/
theorem no_images_exits (f : Resampler) (load : String → Image)
    (paths : List PathArg) (output : String) (square : Bool)
    (width height : Option Nat) (fit : String) (b : Rgb) (m : Int)
    (ed : Option String)
    (hwh : width.isSome = height.isSome)
    (hempty : find_images paths = []) :
    mainModel f load paths output square width height fit (some b) m ed =
      { events := [Ev.printed noImagesMsg], outcome := Outcome.exited 1 } ∧
    ∀ e ∈ (mainModel f load paths output square width height fit
        (some b) m ed).events, ∀ nm, e ≠ Ev.wroteFile nm := by
  have h1 : mainModel f load paths output square width height fit (some b) m ed =
      { events := [Ev.printed noImagesMsg], outcome := Outcome.exited 1 } := by
    unfold mainModel
    rw [if_neg (not_not_intro hwh), hempty]
    rfl
  refine ⟨h1, ?_⟩
  rw [h1]
  intro e he nm
  simp only [List.mem_singleton] at he
  subst he
  simp

theorem no_images_exits_witness :
    (Option.isSome (none : Option Nat) = Option.isSome (none : Option Nat)) ∧
    find_images [PathArg.file "notes.txt"] = [] ∧
    (mainModel pointResampler (fun _ => imgA) [PathArg.file "notes.txt"]
        "carousel.pdf" false none none "contain" (some whiteBg) 0 none =
      { events := [Ev.printed noImagesMsg], outcome := Outcome.exited 1 } ∧
    ∀ e ∈ (mainModel pointResampler (fun _ => imgA) [PathArg.file "notes.txt"]
        "carousel.pdf" false none none "contain" (some whiteBg) 0 none).events,
      ∀ nm, e ≠ Ev.wroteFile nm) :=
  ⟨rfl, by decide,
    no_images_exits pointResampler (fun _ => imgA) [PathArg.file "notes.txt"]
      "carousel.pdf" false none none "contain" whiteBg 0 none rfl (by decide)⟩

/-- Claim C2 counterexample: with fit mode "stretch" (outside contain/cover) and
one discovered image, the run does fail with the invalid-parameter error, but
only after the first source image has been opened: the event trace of the
failing run contains the open event.  This contradicts the claim that the
failure happens before any source image is opened. -/
theorem invalid_fit_cex :
    (mainModel pointResampler (fun _ => imgA) [PathArg.file "a.png"]
        "carousel.pdf" false none none "stretch" (some whiteBg) 0 none).outcome =
      Outcome.badParam fitErrMsg ∧
    Ev.openedImage "a.png" ∈
      (mainModel pointResampler (fun _ => imgA) [PathArg.file "a.png"]
        "carousel.pdf" false none none "stretch" (some whiteBg) 0 none).events := by
  constructor
  · rfl
  · exact List.mem_cons_of_mem _ (List.mem_cons_self _ _)

/-- Claim C2 (amended): for every run whose fit mode is outside
(contain, cover), with the earlier parameter checks passing and at least one
image discovered, the program fails with the invalid-parameter error raised by
resize_canvas while processing the first discovered image — after opening it —
and no output file is written (the trace is exactly the summary line followed
by the first open event). -/
theorem invalid_fit_aborts (f : Resampler) (load : String → Image)
    (paths : List PathArg) (output : String) (square : Bool)
    (width height : Option Nat) (fit : String) (b : Rgb) (m : Int)
    (ed : Option String)
    (hfit1 : fit ≠ "contain") (hfit2 : fit ≠ "cover")
    (hwh : width.isSome = height.isSome)
    (hne : find_images paths ≠ []) :
    ∃ first rest, find_images paths = first :: rest ∧
      mainModel f load paths output square width height fit (some b) m ed =
        { events := [Ev.printed (slidesMsg (find_images paths).length),
            Ev.openedImage first],
          outcome := Outcome.badParam fitErrMsg } := by
  obtain ⟨first, rest, hfr⟩ := List.exists_cons_of_ne_nil hne
  refine ⟨first, rest, hfr, ?_⟩
  unfold mainModel
  rw [if_neg (not_not_intro hwh), hfr]
  simp only [List.isEmpty_cons, Bool.false_eq_true, if_false,
    processAll_invalid_fit f load _ _ fit b m hfit1 hfit2 first rest]

theorem invalid_fit_aborts_witness :
    ("stretch" : String) ≠ "contain" ∧ ("stretch" : String) ≠ "cover" ∧
    (Option.isSome (none : Option Nat) = Option.isSome (none : Option Nat)) ∧
    find_images [PathArg.file "a.png"] ≠ [] ∧
    (∃ first rest, find_images [PathArg.file "a.png"] = first :: rest ∧
      mainModel pointResampler (fun _ => imgA) [PathArg.file "a.png"]
          "carousel.pdf" false none none "stretch" (some whiteBg) 0 none =
        { events := [Ev.printed (slidesMsg
            (find_images [PathArg.file "a.png"]).length),
            Ev.openedImage first],
          outcome := Outcome.badParam fitErrMsg }) :=
  ⟨by decide, by decide, rfl, by decide,
    invalid_fit_aborts pointResampler (fun _ => imgA) [PathArg.file "a.png"]
      "carousel.pdf" false none none "stretch" whiteBg 0 none
      (by decide) (by decide) rfl (by decide)⟩

theorem mem_collectOne_file (s n : String) :
    n ∈ collectOne (PathArg.file s) ↔
      n = s ∧ strLower (pathSuffix n) ∈ IMAGE_EXTS := by
  simp only [collectOne]
  split_ifs with hc
  · simp only [List.mem_singleton]
    constructor
    · intro h
      subst h
      exact ⟨rfl, hc⟩
    · exact fun h => h.1
  · simp only [List.not_mem_nil, false_iff]
    rintro ⟨h1, h2⟩
    subst h1
    exact hc h2

theorem mem_collectOne_dir (files : List String) (n : String) :
    n ∈ collectOne (PathArg.dir files) ↔
      n ∈ files ∧ ∃ ext ∈ IMAGE_EXTS, List.isSuffixOf ext.data n.data = true := by
  simp only [collectOne]
  simp only [List.mem_join, List.mem_map]
  constructor
  · rintro ⟨l, ⟨ext, hext, rfl⟩, hn⟩
    rw [List.mem_filter] at hn
    exact ⟨hn.1, ext, hext, hn.2⟩
  · rintro ⟨hnf, ext, hext, hsuf⟩
    refine ⟨files.filter (fun f => List.isSuffixOf ext.data f.data), ⟨ext, hext, rfl⟩, ?_⟩
    rw [List.mem_filter]
    exact ⟨hnf, hsuf⟩

/-- Claim C8 (amended): discovery accepts a directly-given file if and only if
its pathlib suffix, lowercased, is one of the four extensions (so direct
arguments are matched case-insensitively); it accepts a file found by searching
a directory argument if and only if its name literally ends with one of the
lowercase extensions (the glob patterns are case-sensitive). -/
theorem find_images_membership (paths : List PathArg) (n : String) :
    n ∈ find_images paths ↔
      ((PathArg.file n ∈ paths ∧ strLower (pathSuffix n) ∈ IMAGE_EXTS) ∨
       (∃ files, PathArg.dir files ∈ paths ∧ n ∈ files ∧
         ∃ ext ∈ IMAGE_EXTS, List.isSuffixOf ext.data n.data = true)) := by
  induction paths with
  | nil => simp [find_images]
  | cons p ps ih =>
    unfold find_images
    rw [List.mem_append, ih]
    cases p with
    | file s =>
      rw [mem_collectOne_file]
      constructor
      · rintro ((⟨rfl, hc⟩) | (⟨hf, hc⟩ | ⟨files, hd, hrest⟩))
        · exact Or.inl ⟨List.mem_cons_self _ _, hc⟩
        · exact Or.inl ⟨List.mem_cons_of_mem _ hf, hc⟩
        · exact Or.inr ⟨files, List.mem_cons_of_mem _ hd, hrest⟩
      · rintro (⟨hf, hc⟩ | ⟨files, hd, hrest⟩)
        · rcases List.mem_cons.mp hf with heq | hmem
          · exact Or.inl ⟨(PathArg.file.injEq _ _).mp heq.symm ▸ rfl, hc⟩
          · exact Or.inr (Or.inl ⟨hmem, hc⟩)
        · rcases List.mem_cons.mp hd with heq | hmem
          · exact absurd heq (by simp)
          · exact Or.inr (Or.inr ⟨files, hmem, hrest⟩)
    | dir fs =>
      rw [mem_collectOne_dir]
      constructor
      · rintro ((⟨hnf, hrest⟩) | (⟨hf, hc⟩ | ⟨files, hd, hrest⟩))
        · exact Or.inr ⟨fs, List.mem_cons_self _ _, hnf, hrest⟩
        · exact Or.inl ⟨List.mem_cons_of_mem _ hf, hc⟩
        · exact Or.inr ⟨files, List.mem_cons_of_mem _ hd, hrest⟩
      · rintro (⟨hf, hc⟩ | ⟨files, hd, hrest⟩)
        · rcases List.mem_cons.mp hf with heq | hmem
          · exact absurd heq (by simp)
          · exact Or.inr (Or.inl ⟨hmem, hc⟩)
        · rcases List.mem_cons.mp hd with heq | hmem
          · have : files = fs := by
              have := (PathArg.dir.injEq _ _).mp heq
              exact this
            subst this
            exact Or.inl hrest
          · exact Or.inr (Or.inr ⟨files, hmem, hrest⟩)

/-- Claim C8 counterexample: a directory containing photo.PNG.  The extension
matches PNG case-insensitively, and the very same file given directly as an
argument is accepted, but directory search (case-sensitive glob with lowercase
patterns) misses it, so case-insensitive acceptance does not hold for files
found by searching directory arguments. -/
theorem find_images_case_cex :
    find_images [PathArg.dir ["photo.PNG"]] = [] ∧
    strLower (pathSuffix "photo.PNG") ∈ IMAGE_EXTS ∧
    find_images [PathArg.file "photo.PNG"] = ["photo.PNG"] := by
  decide
